import Mathlib

/-!
# Shallow embedding of the MS5805 Arduino driver

This file embeds the MS5805 pressure/temperature sensor driver
(`ms5805.cpp` / `ms5805.h`) in Lean 4 and proves properties of it.

Modelling conventions:
* `uint8_t`/`uint16_t`/`uint32_t` values are `Nat`s; where the C code can
  wrap (assignment of a wider expression to a narrower unsigned type, or
  a `uint16_t` left shift after integer promotion) an explicit `&&& mask`
  is inserted at that point.
* `int32_t`/`int64_t` arithmetic is modelled over `Int` with explicit
  two's-complement wrapping (`toInt32` / `toInt64`) applied at every
  operation whose result is stored in, or computed at, that width and is
  not trivially in range; C's arithmetic right shift on signed values is
  floor division by a power of two (`sar`), and C's `/` is truncating
  division (`Int.tdiv`).
* The I2C bus is an abstract environment `Env`: the `k`-th call to
  `Wire.endTransmission()` returns `Env.istatus k`, and the `k`-th call
  to `Wire.read()` returns the byte `Env.idata k`.  The driver threads a
  transmission counter `t` and a read counter `r` through its calls and
  records the bus commands it issues in a `List BusOp` log.
* `conversion_and_read_adc` reads its local variable `status` without
  ever initialising it (the initialising call is commented out in the
  source); the indeterminate value it finds there is modelled as the
  explicit environment component `Env.garbage`.
* The final division by 100 that the source performs on `float`s is
  modelled as exact division in `ℚ`.
-/

namespace MS5805

/-- Driver status (`enum ms5805_status`). -/
inductive ms5805_status where
  | ok
  | no_i2c_acknowledge
  | i2c_transfer_error
  | crc_error
deriving DecidableEq

/-- The 8-slot coefficient array `uint16_t eeprom_coeff[MS5805_COEFFICIENT_COUNT + 1]`
(`MS5805_COEFFICIENT_COUNT` is 7). -/
structure Prom where
  c0 : Nat
  c1 : Nat
  c2 : Nat
  c3 : Nat
  c4 : Nat
  c5 : Nat
  c6 : Nat
  c7 : Nat
deriving DecidableEq

/-- Array indexing `n_prom[i]`. -/
def Prom.get (p : Prom) (i : Nat) : Nat :=
  match i with
  | 0 => p.c0
  | 1 => p.c1
  | 2 => p.c2
  | 3 => p.c3
  | 4 => p.c4
  | 5 => p.c5
  | 6 => p.c6
  | 7 => p.c7
  | _ => 0

/-- Array update `n_prom[i] = v`. -/
def Prom.set (p : Prom) (i : Nat) (v : Nat) : Prom :=
  match i with
  | 0 => { p with c0 := v }
  | 1 => { p with c1 := v }
  | 2 => { p with c2 := v }
  | 3 => { p with c3 := v }
  | 4 => { p with c4 := v }
  | 5 => { p with c5 := v }
  | 6 => { p with c6 := v }
  | 7 => { p with c7 := v }
  | _ => p

/-- All eight stored words are 16-bit values (the `uint16_t` typing
invariant of `eeprom_coeff`). -/
def promWF (p : Prom) : Prop :=
  p.c0 < 2 ^ 16 ∧ p.c1 < 2 ^ 16 ∧ p.c2 < 2 ^ 16 ∧ p.c3 < 2 ^ 16 ∧
  p.c4 < 2 ^ 16 ∧ p.c5 < 2 ^ 16 ∧ p.c6 < 2 ^ 16 ∧ p.c7 < 2 ^ 16

instance (p : Prom) : Decidable (promWF p) := by unfold promWF; infer_instance

/-- One iteration of the inner CRC bit loop: `n_rem` is a `uint16_t`, so
the shifted value is reduced mod `2 ^ 16` when stored back. -/
def crcShiftStep (rem : Nat) : Nat :=
  if rem &&& 0x8000 ≠ 0 then ((rem <<< 1) ^^^ 0x3000) &&& 0xFFFF
  else (rem <<< 1) &&& 0xFFFF

/-- The inner loop `for (n_bit = 8; n_bit > 0; n_bit--)`. -/
def crcShiftN : Nat → Nat → Nat
  | 0, rem => rem
  | n + 1, rem => crcShiftN n (crcShiftStep rem)

/-- One iteration of the outer CRC byte loop (`cnt` is the byte index). -/
def crcByteStep (p : Prom) (rem : Nat) (cnt : Nat) : Nat :=
  let rem :=
    if cnt % 2 == 1 then rem ^^^ (p.get (cnt >>> 1) &&& 0x00FF)
    else rem ^^^ (p.get (cnt >>> 1) >>> 8)
  crcShiftN 8 rem

/-- The outer loop `for (cnt = 0; cnt < (MS5805_COEFFICIENT_COUNT + 1) * 2; cnt++)`
(16 iterations), starting from `n_rem = 0x00`. -/
def crcRemainder (p : Prom) : Nat :=
  (List.range 16).foldl (crcByteStep p) 0

/-- `crc_check` from `ms5805.cpp`.  The C function mutates the array it
is handed (it zeroes slot 7, masks slot 0, and finally restores slot 0),
so the embedding returns both the boolean result and the final contents
of the array. -/
def crc_check (n_prom : Prom) (crc : Nat) : Bool × Prom :=
  let crc_read := n_prom.get 0
  let p1 := n_prom.set 7 0
  let p2 := p1.set 0 (0x0FFF &&& p1.get 0)
  let n_rem := crcRemainder p2 >>> 12
  let p3 := p2.set 0 crc_read
  (n_rem == crc, p3)

/-- The 16-byte serial bitstream of the specification's CRC description:
word 0 masked to its low 12 bits, word 7 zeroed, and the 8 words listed
most-significant-byte-first. -/
def crcBytes (p : Prom) : List Nat :=
  let p' := p.set 7 0
  let p' := p'.set 0 (0x0FFF &&& p'.get 0)
  [p'.get 0 >>> 8, p'.get 0 &&& 0x00FF,
   p'.get 1 >>> 8, p'.get 1 &&& 0x00FF,
   p'.get 2 >>> 8, p'.get 2 &&& 0x00FF,
   p'.get 3 >>> 8, p'.get 3 &&& 0x00FF,
   p'.get 4 >>> 8, p'.get 4 &&& 0x00FF,
   p'.get 5 >>> 8, p'.get 5 &&& 0x00FF,
   p'.get 6 >>> 8, p'.get 6 &&& 0x00FF,
   p'.get 7 >>> 8, p'.get 7 &&& 0x00FF]

/-- Modelled from the words of the claim: each byte of the bitstream is
XOR-ed "into the high byte of the remainder for even byte indices and
the low byte for odd indices", then the remainder goes through the eight
shift steps. -/
def crcClaimRemainder (p : Prom) : Nat :=
  ((crcBytes p).enum.foldl
    (fun rem ib =>
      let rem := if ib.1 % 2 == 0 then rem ^^^ (ib.2 <<< 8) else rem ^^^ ib.2
      crcShiftN 8 rem) 0)

/-- The vendor CRC reference check as the claim words it: true iff the
final remainder shifted right by 12 equals the expected 4-bit CRC. -/
def crcClaimCheck (p : Prom) (crc : Nat) : Bool :=
  (crcClaimRemainder p >>> 12) == crc

/-- The same reference with the single amendment the counterexample
forces: every byte of the bitstream is XOR-ed into the low byte of the
remainder (for even byte indices the byte is the word's high byte, for
odd byte indices its low byte). -/
def crcClaimFixedRemainder (p : Prom) : Nat :=
  ((crcBytes p).foldl (fun rem b => crcShiftN 8 (rem ^^^ b)) 0)

/-- The amended reference check. -/
def crcClaimFixedCheck (p : Prom) (crc : Nat) : Bool :=
  (crcClaimFixedRemainder p >>> 12) == crc

/-- A bus operation, as observable on the wire: `cmd c` is a
`beginTransmission` / `write c` / `endTransmission` group, `rd n` is a
`requestFrom` of `n` bytes followed by `n` `Wire.read` calls. -/
inductive BusOp where
  | cmd (c : Nat)
  | rd (n : Nat)
deriving DecidableEq

/-- The abstract I2C environment: `istatus k` is the value returned by
the `k`-th `Wire.endTransmission()`, `idata k` the value returned by the
`k`-th `Wire.read()`, and `garbage` the indeterminate value found in the
uninitialised local `status` of `conversion_and_read_adc`. -/
structure Env where
  istatus : Nat → Nat
  idata : Nat → Nat
  garbage : ms5805_status

/-- The driver instance state: the `coeff_read` flag, the
`eeprom_coeff` array and the `ms5805_resolution_osr` member. -/
structure DState where
  coeff_read : Bool
  eeprom_coeff : Prom
  osr : Nat

/-- `read_eeprom_coeff` from `ms5805.cpp`: one address-select command
followed by a 2-byte read.  Returns the driver status, the value written
through the `coeff` out-pointer (`none` when the function returns before
the assignment), the advanced counters, and the bus log.  The C source
checks `i2c_status` only against `ms5805_STATUS_ERR_OVERFLOW` (code 1);
every other status, `ms5805_STATUS_ERR_TIMEOUT` (code 4) included, falls
through to the `ms5805_status_ok` return. -/
def read_eeprom_coeff (e : Env) (t r : Nat) (command : Nat) :
    ms5805_status × Option Nat × Nat × Nat × List BusOp :=
  let i2c_status := e.istatus t
  let b0 := e.idata r &&& 0xFF
  let b1 := e.idata (r + 1) &&& 0xFF
  let log := [BusOp.cmd command, BusOp.rd 2]
  if i2c_status = 1 then (ms5805_status.no_i2c_acknowledge, none, t + 1, r + 2, log)
  else (ms5805_status.ok, some ((b0 <<< 8) ||| b1), t + 1, r + 2, log)

/-- The loop `for (i = 0; i < MS5805_COEFFICIENT_COUNT; i++)` of
`read_eeprom`, with the remaining iteration count as first argument and
the loop index `i` as second. -/
def read_eeprom_loop (e : Env) :
    Nat → Nat → Prom → Nat → Nat → List BusOp →
    ms5805_status × Prom × Nat × Nat × List BusOp
  | 0, _, p, t, r, log => (ms5805_status.ok, p, t, r, log)
  | n + 1, i, p, t, r, log =>
    match read_eeprom_coeff e t r (0xA0 + i * 2) with
    | (st, v, t', r', l) =>
      if st = ms5805_status.ok then
        read_eeprom_loop e n (i + 1) (p.set i (v.getD 0)) t' r' (log ++ l)
      else (st, p, t', r', log ++ l)

/-- `read_eeprom` from `ms5805.cpp`: read the 7 coefficient words
(`MS5805_COEFFICIENT_COUNT` is 7, addresses `0xA0 + i * 2`), then run
`crc_check` against the CRC nibble stored in the top 4 bits of word 0
and set `coeff_read` on success.  `crc_check`'s in-place mutation of
`eeprom_coeff` is kept in the state. -/
def read_eeprom (e : Env) (s : DState) (t r : Nat) :
    ms5805_status × DState × Nat × Nat × List BusOp :=
  match read_eeprom_loop e 7 0 s.eeprom_coeff t r [] with
  | (st, p, t', r', log) =>
    if st = ms5805_status.ok then
      match crc_check p ((p.get 0 &&& 0xF000) >>> 12) with
      | (okb, p') =>
        if okb then
          (ms5805_status.ok, { s with eeprom_coeff := p', coeff_read := true }, t', r', log)
        else (ms5805_status.crc_error, { s with eeprom_coeff := p' }, t', r', log)
    else (st, { s with eeprom_coeff := p }, t', r', log)

/-- The 24-bit big-endian combination of the three ADC bytes read
starting at read index `r`. -/
def adc3 (e : Env) (r : Nat) : Nat :=
  ((e.idata r &&& 0xFF) <<< 16) ||| ((e.idata (r + 1) &&& 0xFF) <<< 8) |||
    (e.idata (r + 2) &&& 0xFF)

/-- `conversion_and_read_adc` from `ms5805.cpp`.  The first
`endTransmission` (the conversion-start command) has its return value
discarded; the local `status` is never assigned before it is tested, so
the two `if (status != ms5805_status_ok) return status;` checks act on
the indeterminate value `e.garbage`, and the final `return status`
(reached only when that value is `ok`) returns it. -/
def conversion_and_read_adc (e : Env) (t r : Nat) (cmd : Nat) :
    ms5805_status × Option Nat × Nat × Nat × List BusOp :=
  let status := e.garbage
  let i2c_status := e.istatus (t + 1)
  let adc := adc3 e r
  let log := [BusOp.cmd cmd, BusOp.cmd 0x00, BusOp.rd 3]
  if status ≠ ms5805_status.ok then (status, none, t + 2, r + 3, log)
  else if i2c_status = 1 then (ms5805_status.no_i2c_acknowledge, none, t + 2, r + 3, log)
  else if i2c_status ≠ 0 then (ms5805_status.i2c_transfer_error, none, t + 2, r + 3, log)
  else (status, some adc, t + 2, r + 3, log)

/-- Two's-complement wrap of an integer to `int32_t`. -/
def toInt32 (x : Int) : Int := (x + 2 ^ 31) % 2 ^ 32 - 2 ^ 31

/-- Two's-complement wrap of an integer to `int64_t`. -/
def toInt64 (x : Int) : Int := (x + 2 ^ 63) % 2 ^ 64 - 2 ^ 63

/-- C's arithmetic right shift on a signed value: floor division by a
power of two. -/
def sar (x : Int) (n : Nat) : Int := Int.fdiv x (2 ^ n)

/-- `dT = (int32_t)adc_temperature - ((int32_t)eeprom_coeff[5] << 8)`. -/
def dT_src (c : Prom) (adc_temperature : Nat) : Int :=
  toInt32 (toInt32 (adc_temperature : Int) - toInt32 ((c.get 5 : Int) * 2 ^ 8))

/-- `TEMP = 2000 + ((int64_t)dT * (int64_t)eeprom_coeff[6] >> 23)`,
stored in the `int32_t` variable `TEMP`. -/
def TEMP_src (c : Prom) (dT : Int) : Int :=
  toInt32 (toInt64 (2000 + sar (toInt64 (dT * (c.get 6 : Int))) 23))

/-- The second-order temperature-compensation block of
`read_temperature_and_pressure` (the `if (TEMP < 2000)` /
`if (TEMP < -1500)` ladder), yielding `(T2, OFF2, SENS2)`.  All three
are `int64_t`; `/ 16` is C's truncating division. -/
def secondOrder (dT TEMP : Int) : Int × Int × Int :=
  if TEMP < 2000 then
    let T2 := sar (toInt64 (3 * toInt64 (dT * dT))) 33
    let OFF2 := Int.tdiv (toInt64 (toInt64 (61 * (TEMP - 2000)) * (TEMP - 2000))) 16
    let SENS2 := Int.tdiv (toInt64 (toInt64 (29 * (TEMP - 2000)) * (TEMP - 2000))) 16
    if TEMP < -1500 then
      (T2,
       toInt64 (OFF2 + toInt64 (toInt64 (17 * (TEMP + 1500)) * (TEMP + 1500))),
       toInt64 (SENS2 + toInt64 (toInt64 (9 * (TEMP + 1500)) * (TEMP + 1500))))
    else (T2, OFF2, SENS2)
  else (sar (toInt64 (5 * toInt64 (dT * dT))) 38, 0, 0)

/-- `OFF = ((int64_t)eeprom_coeff[2] << 17) + (((int64_t)eeprom_coeff[4] * dT) >> 6)`
followed by `OFF -= OFF2`. -/
def OFF_src (c : Prom) (dT OFF2 : Int) : Int :=
  toInt64 (toInt64 (toInt64 ((c.get 2 : Int) * 2 ^ 17) +
    sar (toInt64 ((c.get 4 : Int) * dT)) 6) - OFF2)

/-- `SENS = ((int64_t)eeprom_coeff[1] << 16) + (((int64_t)eeprom_coeff[3] * dT) >> 7)`
followed by `SENS -= SENS2`. -/
def SENS_src (c : Prom) (dT SENS2 : Int) : Int :=
  toInt64 (toInt64 (toInt64 ((c.get 1 : Int) * 2 ^ 16) +
    sar (toInt64 ((c.get 3 : Int) * dT)) 7) - SENS2)

/-- `P = (((adc_pressure * SENS) >> 21) - OFF) >> 15` (the `uint32_t`
`adc_pressure` is converted to `int64_t` by the usual arithmetic
conversions). -/
def P_src (adc_pressure : Nat) (SENS OFF : Int) : Int :=
  sar (toInt64 (sar (toInt64 ((adc_pressure : Int) * SENS)) 21 - OFF)) 15

/-- The compensation block of `read_temperature_and_pressure`
(source lines computing `dT` through the two output assignments).  The
final `float` divisions by 100 are modelled exactly in `ℚ`. -/
def compensate (c : Prom) (adc_temperature adc_pressure : Nat) : ℚ × ℚ :=
  let dT := dT_src c adc_temperature
  let TEMP := TEMP_src c dT
  let so := secondOrder dT TEMP
  let OFF := OFF_src c dT so.2.1
  let SENS := SENS_src c dT so.2.2
  let P := P_src adc_pressure SENS OFF
  (((TEMP - so.1 : Int) : ℚ) / 100, ((P : Int) : ℚ) / 100)

/-- `read_temperature_and_pressure` from `ms5805.cpp`: lazy coefficient
load gated on `coeff_read`, a temperature conversion, a pressure
conversion, the zero-ADC guard, and the compensation.  Returns the
status, the outputs written through the two out-pointers (`none` when
the function returns before writing them), the new driver state, the
advanced counters and the bus log. -/
def read_temperature_and_pressure (e : Env) (s : DState) (t r : Nat) :
    ms5805_status × Option (ℚ × ℚ) × DState × Nat × Nat × List BusOp :=
  match (if s.coeff_read = false then read_eeprom e s t r
         else (ms5805_status.ok, s, t, r, [])) with
  | (st0, s1, t1, r1, log1) =>
    if st0 ≠ ms5805_status.ok then (st0, none, s1, t1, r1, log1)
    else
      match conversion_and_read_adc e t1 r1 ((s1.osr * 2 &&& 0xFF) ||| 0x50) with
      | (st1, adcT, t2, r2, log2) =>
        if st1 ≠ ms5805_status.ok then (st1, none, s1, t2, r2, log1 ++ log2)
        else
          match conversion_and_read_adc e t2 r2 ((s1.osr * 2 &&& 0xFF) ||| 0x40) with
          | (st2, adcP, t3, r3, log3) =>
            if st2 ≠ ms5805_status.ok then (st2, none, s1, t3, r3, log1 ++ log2 ++ log3)
            else
              let adc_temperature := adcT.getD 0
              let adc_pressure := adcP.getD 0
              if adc_temperature = 0 ∨ adc_pressure = 0 then
                (ms5805_status.i2c_transfer_error, none, s1, t3, r3, log1 ++ log2 ++ log3)
              else
                (ms5805_status.ok, some (compensate s1.eeprom_coeff adc_temperature adc_pressure),
                 s1, t3, r3, log1 ++ log2 ++ log3)

/-- Modelled from the claim text: the second-order correction in exact
integer arithmetic — `T2 = (3 * dT * dT) >> 33`,
`OFF2 = 61*(TEMP-2000)^2/16` (plus `17*(TEMP+1500)^2` below `-1500`),
`SENS2 = 29*(TEMP-2000)^2/16` (plus `9*(TEMP+1500)^2` below `-1500`),
and `T2 = (5 * dT * dT) >> 38`, `OFF2 = SENS2 = 0` otherwise. -/
def claimSecondOrder (dT TEMP : Int) : Int × Int × Int :=
  if TEMP < 2000 then
    (sar (3 * (dT * dT)) 33,
     Int.tdiv (61 * ((TEMP - 2000) * (TEMP - 2000))) 16 +
       (if TEMP < -1500 then 17 * ((TEMP + 1500) * (TEMP + 1500)) else 0),
     Int.tdiv (29 * ((TEMP - 2000) * (TEMP - 2000))) 16 +
       (if TEMP < -1500 then 9 * ((TEMP + 1500) * (TEMP + 1500)) else 0))
  else (sar (5 * (dT * dT)) 38, 0, 0)

/-- Modelled from the claim text: the whole compensation pipeline in
exact signed integer arithmetic with arithmetic right shifts —
`dT = rawTemp - (C[5] << 8)`, `TEMP = 2000 + ((dT * C[6]) >> 23)`,
`OFF = (C[2] << 17) + ((C[4] * dT) >> 6) - OFF2`,
`SENS = (C[1] << 16) + ((C[3] * dT) >> 7) - SENS2`,
`P = (((rawPressure * SENS) >> 21) - OFF) >> 15`, and the outputs
`(TEMP - T2) / 100` and `P / 100`. -/
def claimCompensate (c : Prom) (rawTemp rawPressure : Nat) : ℚ × ℚ :=
  let dT : Int := (rawTemp : Int) - (c.get 5 : Int) * 2 ^ 8
  let TEMP : Int := 2000 + sar (dT * (c.get 6 : Int)) 23
  let so := claimSecondOrder dT TEMP
  let OFF : Int := (c.get 2 : Int) * 2 ^ 17 + sar ((c.get 4 : Int) * dT) 6 - so.2.1
  let SENS : Int := (c.get 1 : Int) * 2 ^ 16 + sar ((c.get 3 : Int) * dT) 7 - so.2.2
  let P : Int := sar (sar ((rawPressure : Int) * SENS) 21 - OFF) 15
  (((TEMP - so.1 : Int) : ℚ) / 100, ((P : Int) : ℚ) / 100)

/-! ## Arithmetic helper lemmas -/

theorem toInt32_id {x : Int} (h1 : -(2 ^ 31) ≤ x) (h2 : x < 2 ^ 31) :
    toInt32 x = x := by
  unfold toInt32
  omega

theorem toInt64_id {x : Int} (h1 : -(2 ^ 63) ≤ x) (h2 : x < 2 ^ 63) :
    toInt64 x = x := by
  unfold toInt64
  omega

theorem sar_eq_ediv (x : Int) (n : Nat) : sar x n = x / 2 ^ n := by
  unfold sar
  exact Int.fdiv_eq_ediv x (by positivity)

theorem sar_le_of_le {x B : Int} {n : Nat} (h : x ≤ B * 2 ^ n) :
    sar x n ≤ B := by
  rw [sar_eq_ediv]
  calc x / 2 ^ n ≤ B * 2 ^ n / 2 ^ n := Int.ediv_le_ediv (by positivity) h
  _ = B := Int.mul_ediv_cancel B (by positivity)

theorem le_sar_of_le {x A : Int} {n : Nat} (h : A * 2 ^ n ≤ x) :
    A ≤ sar x n := by
  rw [sar_eq_ediv]
  calc A = A * 2 ^ n / 2 ^ n := (Int.mul_ediv_cancel A (by positivity)).symm
  _ ≤ x / 2 ^ n := Int.ediv_le_ediv (by positivity) h

theorem abs_mul_le_of {a b A B : Int} (ha : |a| ≤ A) (hb : |b| ≤ B) :
    |a * b| ≤ A * B := by
  rw [abs_mul]
  exact mul_le_mul ha hb (abs_nonneg b) (le_trans (abs_nonneg a) ha)

/-! ## Helper lemmas and claim theorems -/

theorem dT_src_eq {c : Prom} {aT : Nat} (hc : promWF c) (hT : aT < 2 ^ 24) :
    dT_src c aT = (aT : Int) - (c.get 5 : Int) * 2 ^ 8 ∧ |dT_src c aT| ≤ 2 ^ 24 := by
  have h5 : c.c5 < 2 ^ 16 := hc.2.2.2.2.2.1
  have h5i : ((c.get 5 : Nat) : Int) < 2 ^ 16 := by
    show ((c.c5 : Nat) : Int) < 2 ^ 16
    exact_mod_cast h5
  have h5n : (0 : Int) ≤ (c.get 5 : Nat) := Int.ofNat_nonneg _
  have hTi : ((aT : Nat) : Int) < 2 ^ 24 := by exact_mod_cast hT
  have hTn : (0 : Int) ≤ (aT : Nat) := Int.ofNat_nonneg _
  unfold dT_src toInt32
  constructor
  · omega
  · rw [abs_le]
    omega

theorem TEMP_src_eq {c : Prom} {dT : Int} (hc : promWF c) (hdT : |dT| ≤ 2 ^ 24) :
    TEMP_src c dT = 2000 + sar (dT * (c.get 6 : Int)) 23 ∧
      -129072 ≤ TEMP_src c dT ∧ TEMP_src c dT ≤ 133072 := by
  have h6 : c.c6 < 2 ^ 16 := hc.2.2.2.2.2.2.1
  have h6a : |(c.get 6 : Int)| ≤ 2 ^ 16 := by
    show |((c.c6 : Nat) : Int)| ≤ 2 ^ 16
    rw [abs_le]
    constructor
    · have := Int.ofNat_nonneg c.c6
      omega
    · have : ((c.c6 : Nat) : Int) < 2 ^ 16 := by exact_mod_cast h6
      omega
  have hm : |dT * (c.get 6 : Int)| ≤ 2 ^ 40 := by
    have := abs_mul_le_of hdT h6a
    calc |dT * (c.get 6 : Int)| ≤ 2 ^ 24 * 2 ^ 16 := this
    _ = 2 ^ 40 := by norm_num
  obtain ⟨hm1, hm2⟩ := abs_le.mp hm
  have h64 : toInt64 (dT * (c.get 6 : Int)) = dT * (c.get 6 : Int) :=
    toInt64_id (by omega) (by omega)
  have hs1 : sar (dT * (c.get 6 : Int)) 23 ≤ 2 ^ 17 :=
    sar_le_of_le (by norm_num at hm2 ⊢; omega)
  have hs2 : -(2 ^ 17) ≤ sar (dT * (c.get 6 : Int)) 23 :=
    le_sar_of_le (by norm_num at hm1 ⊢; omega)
  unfold TEMP_src
  rw [h64]
  have h64b : toInt64 (2000 + sar (dT * (c.get 6 : Int)) 23) =
      2000 + sar (dT * (c.get 6 : Int)) 23 :=
    toInt64_id (by omega) (by omega)
  rw [h64b]
  have h32 : toInt32 (2000 + sar (dT * (c.get 6 : Int)) 23) =
      2000 + sar (dT * (c.get 6 : Int)) 23 :=
    toInt32_id (by omega) (by omega)
  rw [h32]
  omega

theorem toInt64_id_abs {x B : Int} (h : |x| ≤ B) (hB : B ≤ 2 ^ 63 - 1) :
    toInt64 x = x := by
  obtain ⟨l, u⟩ := abs_le.mp h
  exact toInt64_id (by omega) (by omega)

theorem tdiv16_bounds (x : Int) {B : Int} (hx : 0 ≤ x) (hB : x ≤ B) :
    0 ≤ Int.tdiv x 16 ∧ Int.tdiv x 16 ≤ B := by
  constructor
  · exact Int.tdiv_nonneg hx (by norm_num)
  · rw [Int.tdiv_eq_ediv hx (by norm_num)]
    exact le_trans (Int.ediv_le_self 16 hx) hB

theorem secondOrder_eq {dT TEMP : Int} (hdT : |dT| ≤ 2 ^ 24)
    (h1 : -129072 ≤ TEMP) (h2 : TEMP ≤ 133072) :
    secondOrder dT TEMP = claimSecondOrder dT TEMP := by
  have hdd : |dT * dT| ≤ 2 ^ 48 := by
    calc |dT * dT| ≤ 2 ^ 24 * 2 ^ 24 := abs_mul_le_of hdT hdT
    _ = 2 ^ 48 := by norm_num
  obtain ⟨hdd1, hdd2⟩ := abs_le.mp hdd
  have hddn : 0 ≤ dT * dT := mul_self_nonneg dT
  have hdd64 : toInt64 (dT * dT) = dT * dT := toInt64_id_abs hdd (by norm_num)
  unfold secondOrder claimSecondOrder
  by_cases hlt : TEMP < 2000
  · simp only [if_pos hlt]
    have hA : |TEMP - 2000| ≤ 131072 := abs_le.mpr (by constructor <;> omega)
    have h61a : |61 * (TEMP - 2000)| ≤ 7995392 := abs_le.mpr (by constructor <;> omega)
    have h61w : toInt64 (61 * (TEMP - 2000)) = 61 * (TEMP - 2000) :=
      toInt64_id (by omega) (by omega)
    have h61m : |61 * (TEMP - 2000) * (TEMP - 2000)| ≤ 1047972020224 := by
      calc |61 * (TEMP - 2000) * (TEMP - 2000)| ≤ 7995392 * 131072 :=
        abs_mul_le_of h61a hA
      _ = 1047972020224 := by norm_num
    have h61mw : toInt64 (61 * (TEMP - 2000) * (TEMP - 2000)) =
        61 * (TEMP - 2000) * (TEMP - 2000) := toInt64_id_abs h61m (by norm_num)
    have h29a : |29 * (TEMP - 2000)| ≤ 3801088 := abs_le.mpr (by constructor <;> omega)
    have h29w : toInt64 (29 * (TEMP - 2000)) = 29 * (TEMP - 2000) :=
      toInt64_id (by omega) (by omega)
    have h29m : |29 * (TEMP - 2000) * (TEMP - 2000)| ≤ 498216206336 := by
      calc |29 * (TEMP - 2000) * (TEMP - 2000)| ≤ 3801088 * 131072 :=
        abs_mul_le_of h29a hA
      _ = 498216206336 := by norm_num
    have h29mw : toInt64 (29 * (TEMP - 2000) * (TEMP - 2000)) =
        29 * (TEMP - 2000) * (TEMP - 2000) := toInt64_id_abs h29m (by norm_num)
    have h3w : toInt64 (3 * (dT * dT)) = 3 * (dT * dT) := toInt64_id (by omega) (by omega)
    rw [hdd64, h3w, h61w, h61mw, h29w, h29mw]
    by_cases hlt2 : TEMP < -1500
    · simp only [if_pos hlt2]
      have hB : |TEMP + 1500| ≤ 134572 := abs_le.mpr (by constructor <;> omega)
      have h17a : |17 * (TEMP + 1500)| ≤ 2287724 := abs_le.mpr (by constructor <;> omega)
      have h17w : toInt64 (17 * (TEMP + 1500)) = 17 * (TEMP + 1500) :=
        toInt64_id (by omega) (by omega)
      have h17m : |17 * (TEMP + 1500) * (TEMP + 1500)| ≤ 307863594128 := by
        calc |17 * (TEMP + 1500) * (TEMP + 1500)| ≤ 2287724 * 134572 :=
          abs_mul_le_of h17a hB
        _ = 307863594128 := by norm_num
      have h17mw : toInt64 (17 * (TEMP + 1500) * (TEMP + 1500)) =
          17 * (TEMP + 1500) * (TEMP + 1500) := toInt64_id_abs h17m (by norm_num)
      have h9a : |9 * (TEMP + 1500)| ≤ 1211148 := abs_le.mpr (by constructor <;> omega)
      have h9w : toInt64 (9 * (TEMP + 1500)) = 9 * (TEMP + 1500) :=
        toInt64_id (by omega) (by omega)
      have h9m : |9 * (TEMP + 1500) * (TEMP + 1500)| ≤ 162986608656 := by
        calc |9 * (TEMP + 1500) * (TEMP + 1500)| ≤ 1211148 * 134572 :=
          abs_mul_le_of h9a hB
        _ = 162986608656 := by norm_num
      have h9mw : toInt64 (9 * (TEMP + 1500) * (TEMP + 1500)) =
          9 * (TEMP + 1500) * (TEMP + 1500) := toInt64_id_abs h9m (by norm_num)
      obtain ⟨hq1, hq2⟩ := tdiv16_bounds (61 * (TEMP - 2000) * (TEMP - 2000))
        (by nlinarith [mul_self_nonneg (TEMP - 2000)]) (abs_le.mp h61m).2
      obtain ⟨hq3, hq4⟩ := tdiv16_bounds (29 * (TEMP - 2000) * (TEMP - 2000))
        (by nlinarith [mul_self_nonneg (TEMP - 2000)]) (abs_le.mp h29m).2
      obtain ⟨hB1, hB2⟩ := abs_le.mp h17m
      obtain ⟨hB3, hB4⟩ := abs_le.mp h9m
      rw [h17w, h17mw, h9w, h9mw]
      have hadd1 : toInt64 (Int.tdiv (61 * (TEMP - 2000) * (TEMP - 2000)) 16 +
          17 * (TEMP + 1500) * (TEMP + 1500)) =
          Int.tdiv (61 * (TEMP - 2000) * (TEMP - 2000)) 16 +
          17 * (TEMP + 1500) * (TEMP + 1500) := toInt64_id (by omega) (by omega)
      have hadd2 : toInt64 (Int.tdiv (29 * (TEMP - 2000) * (TEMP - 2000)) 16 +
          9 * (TEMP + 1500) * (TEMP + 1500)) =
          Int.tdiv (29 * (TEMP - 2000) * (TEMP - 2000)) 16 +
          9 * (TEMP + 1500) * (TEMP + 1500) := toInt64_id (by omega) (by omega)
      rw [hadd1, hadd2, mul_assoc 61, mul_assoc 29, mul_assoc 17, mul_assoc 9]
    · simp only [if_neg hlt2]
      rw [mul_assoc 61, mul_assoc 29, add_zero, add_zero]
  · simp only [if_neg hlt]
    have h5w : toInt64 (5 * (dT * dT)) = 5 * (dT * dT) := toInt64_id (by omega) (by omega)
    rw [hdd64, h5w]

theorem tdiv16_le {x B : Int} (hx : 0 ≤ x) (hB : x ≤ B * 16) :
    Int.tdiv x 16 ≤ B := by
  rw [Int.tdiv_eq_ediv hx (by norm_num)]
  calc x / 16 ≤ B * 16 / 16 := Int.ediv_le_ediv (by norm_num) hB
  _ = B := Int.mul_ediv_cancel B (by norm_num)

theorem claimSecondOrder_bounds (dT TEMP : Int)
    (h1 : -129072 ≤ TEMP) (h2 : TEMP ≤ 133072) :
    0 ≤ (claimSecondOrder dT TEMP).2.1 ∧ (claimSecondOrder dT TEMP).2.1 ≤ 2 ^ 39 ∧
    0 ≤ (claimSecondOrder dT TEMP).2.2 ∧ (claimSecondOrder dT TEMP).2.2 ≤ 2 ^ 38 := by
  unfold claimSecondOrder
  by_cases hlt : TEMP < 2000
  · simp only [if_pos hlt]
    have hAA : 0 ≤ (TEMP - 2000) * (TEMP - 2000) := mul_self_nonneg _
    have hAA2 : (TEMP - 2000) * (TEMP - 2000) ≤ 17179869184 := by nlinarith
    have h61q : Int.tdiv (61 * ((TEMP - 2000) * (TEMP - 2000))) 16 ≤ 65498251264 :=
      tdiv16_le (by positivity) (by omega)
    have h61q0 : 0 ≤ Int.tdiv (61 * ((TEMP - 2000) * (TEMP - 2000))) 16 :=
      Int.tdiv_nonneg (by positivity) (by norm_num)
    have h29q : Int.tdiv (29 * ((TEMP - 2000) * (TEMP - 2000))) 16 ≤ 31138512896 :=
      tdiv16_le (by positivity) (by omega)
    have h29q0 : 0 ≤ Int.tdiv (29 * ((TEMP - 2000) * (TEMP - 2000))) 16 :=
      Int.tdiv_nonneg (by positivity) (by norm_num)
    by_cases hlt2 : TEMP < -1500
    · simp only [if_pos hlt2]
      have hBB : 0 ≤ (TEMP + 1500) * (TEMP + 1500) := mul_self_nonneg _
      have hBB2 : (TEMP + 1500) * (TEMP + 1500) ≤ 18109623184 := by nlinarith
      refine ⟨by omega, by omega, by omega, by omega⟩
    · simp only [if_neg hlt2]
      refine ⟨by omega, by omega, by omega, by omega⟩
  · simp only [if_neg hlt]
    norm_num

theorem OFF_src_eq {c : Prom} {dT OFF2 : Int} (hc : promWF c) (hdT : |dT| ≤ 2 ^ 24)
    (hO1 : 0 ≤ OFF2) (hO2 : OFF2 ≤ 2 ^ 39) :
    OFF_src c dT OFF2 =
      (c.get 2 : Int) * 2 ^ 17 + sar ((c.get 4 : Int) * dT) 6 - OFF2 ∧
    |OFF_src c dT OFF2| ≤ 2 ^ 40 := by
  have h2v : c.c2 < 2 ^ 16 := hc.2.2.1
  have h2i : (0 : Int) ≤ (c.get 2 : Nat) ∧ ((c.get 2 : Nat) : Int) < 2 ^ 16 := by
    refine ⟨Int.ofNat_nonneg _, ?_⟩
    show ((c.c2 : Nat) : Int) < 2 ^ 16
    exact_mod_cast h2v
  have h4v : c.c4 < 2 ^ 16 := hc.2.2.2.2.1
  have h4a : |(c.get 4 : Int)| ≤ 2 ^ 16 := by
    rw [abs_le]
    have := Int.ofNat_nonneg (c.get 4)
    have : ((c.get 4 : Nat) : Int) < 2 ^ 16 := by
      show ((c.c4 : Nat) : Int) < 2 ^ 16
      exact_mod_cast h4v
    omega
  have hm : |(c.get 4 : Int) * dT| ≤ 2 ^ 40 := by
    calc |(c.get 4 : Int) * dT| ≤ 2 ^ 16 * 2 ^ 24 := abs_mul_le_of h4a hdT
    _ = 2 ^ 40 := by norm_num
  obtain ⟨hm1, hm2⟩ := abs_le.mp hm
  have hw1 : toInt64 ((c.get 4 : Int) * dT) = (c.get 4 : Int) * dT :=
    toInt64_id_abs hm (by norm_num)
  have hs1 : sar ((c.get 4 : Int) * dT) 6 ≤ 2 ^ 34 :=
    sar_le_of_le (by norm_num at hm2 ⊢; omega)
  have hs2 : -(2 ^ 34) ≤ sar ((c.get 4 : Int) * dT) 6 :=
    le_sar_of_le (by norm_num at hm1 ⊢; omega)
  have hw2 : toInt64 ((c.get 2 : Int) * 2 ^ 17) = (c.get 2 : Int) * 2 ^ 17 :=
    toInt64_id (by omega) (by omega)
  unfold OFF_src
  rw [hw1, hw2]
  have hw3 : toInt64 ((c.get 2 : Int) * 2 ^ 17 + sar ((c.get 4 : Int) * dT) 6) =
      (c.get 2 : Int) * 2 ^ 17 + sar ((c.get 4 : Int) * dT) 6 :=
    toInt64_id (by omega) (by omega)
  rw [hw3]
  have hw4 : toInt64 ((c.get 2 : Int) * 2 ^ 17 + sar ((c.get 4 : Int) * dT) 6 - OFF2) =
      (c.get 2 : Int) * 2 ^ 17 + sar ((c.get 4 : Int) * dT) 6 - OFF2 :=
    toInt64_id (by omega) (by omega)
  rw [hw4]
  refine ⟨rfl, ?_⟩
  rw [abs_le]
  omega

theorem SENS_src_eq {c : Prom} {dT SENS2 : Int} (hc : promWF c) (hdT : |dT| ≤ 2 ^ 24)
    (hS1 : 0 ≤ SENS2) (hS2 : SENS2 ≤ 2 ^ 38) :
    SENS_src c dT SENS2 =
      (c.get 1 : Int) * 2 ^ 16 + sar ((c.get 3 : Int) * dT) 7 - SENS2 ∧
    |SENS_src c dT SENS2| ≤ 2 ^ 38 + 2 ^ 34 := by
  have h1v : c.c1 < 2 ^ 16 := hc.2.1
  have h1i : (0 : Int) ≤ (c.get 1 : Nat) ∧ ((c.get 1 : Nat) : Int) < 2 ^ 16 := by
    refine ⟨Int.ofNat_nonneg _, ?_⟩
    show ((c.c1 : Nat) : Int) < 2 ^ 16
    exact_mod_cast h1v
  have h3v : c.c3 < 2 ^ 16 := hc.2.2.2.1
  have h3a : |(c.get 3 : Int)| ≤ 2 ^ 16 := by
    rw [abs_le]
    have := Int.ofNat_nonneg (c.get 3)
    have : ((c.get 3 : Nat) : Int) < 2 ^ 16 := by
      show ((c.c3 : Nat) : Int) < 2 ^ 16
      exact_mod_cast h3v
    omega
  have hm : |(c.get 3 : Int) * dT| ≤ 2 ^ 40 := by
    calc |(c.get 3 : Int) * dT| ≤ 2 ^ 16 * 2 ^ 24 := abs_mul_le_of h3a hdT
    _ = 2 ^ 40 := by norm_num
  obtain ⟨hm1, hm2⟩ := abs_le.mp hm
  have hw1 : toInt64 ((c.get 3 : Int) * dT) = (c.get 3 : Int) * dT :=
    toInt64_id_abs hm (by norm_num)
  have hs1 : sar ((c.get 3 : Int) * dT) 7 ≤ 2 ^ 33 :=
    sar_le_of_le (by norm_num at hm2 ⊢; omega)
  have hs2 : -(2 ^ 33) ≤ sar ((c.get 3 : Int) * dT) 7 :=
    le_sar_of_le (by norm_num at hm1 ⊢; omega)
  have hw2 : toInt64 ((c.get 1 : Int) * 2 ^ 16) = (c.get 1 : Int) * 2 ^ 16 :=
    toInt64_id (by omega) (by omega)
  unfold SENS_src
  rw [hw1, hw2]
  have hw3 : toInt64 ((c.get 1 : Int) * 2 ^ 16 + sar ((c.get 3 : Int) * dT) 7) =
      (c.get 1 : Int) * 2 ^ 16 + sar ((c.get 3 : Int) * dT) 7 :=
    toInt64_id (by omega) (by omega)
  rw [hw3]
  have hw4 : toInt64 ((c.get 1 : Int) * 2 ^ 16 + sar ((c.get 3 : Int) * dT) 7 - SENS2) =
      (c.get 1 : Int) * 2 ^ 16 + sar ((c.get 3 : Int) * dT) 7 - SENS2 :=
    toInt64_id (by omega) (by omega)
  rw [hw4]
  refine ⟨rfl, ?_⟩
  rw [abs_le]
  omega

theorem P_src_eq {aP : Nat} {SENS OFF : Int} (hP : aP < 2 ^ 24)
    (hS : |SENS| ≤ 2 ^ 38 + 2 ^ 34) (hO : |OFF| ≤ 2 ^ 40) :
    P_src aP SENS OFF = sar (sar ((aP : Int) * SENS) 21 - OFF) 15 := by
  have hPa : |(aP : Int)| ≤ 2 ^ 24 := by
    rw [abs_le]
    have := Int.ofNat_nonneg aP
    have : ((aP : Nat) : Int) < 2 ^ 24 := by exact_mod_cast hP
    omega
  have hm : |(aP : Int) * SENS| ≤ 2 ^ 62 + 2 ^ 58 := by
    calc |(aP : Int) * SENS| ≤ 2 ^ 24 * (2 ^ 38 + 2 ^ 34) := abs_mul_le_of hPa hS
    _ = 2 ^ 62 + 2 ^ 58 := by norm_num
  obtain ⟨hm1, hm2⟩ := abs_le.mp hm
  have hw1 : toInt64 ((aP : Int) * SENS) = (aP : Int) * SENS :=
    toInt64_id_abs hm (by norm_num)
  have hs1 : sar ((aP : Int) * SENS) 21 ≤ 2 ^ 41 + 2 ^ 37 :=
    sar_le_of_le (by norm_num at hm2 ⊢; omega)
  have hs2 : -(2 ^ 41 + 2 ^ 37) ≤ sar ((aP : Int) * SENS) 21 :=
    le_sar_of_le (by norm_num at hm1 ⊢; omega)
  obtain ⟨hO1, hO2⟩ := abs_le.mp hO
  unfold P_src
  rw [hw1]
  have hw2 : toInt64 (sar ((aP : Int) * SENS) 21 - OFF) =
      sar ((aP : Int) * SENS) 21 - OFF :=
    toInt64_id (by omega) (by omega)
  rw [hw2]

theorem compensate_eq {c : Prom} {aT aP : Nat} (hc : promWF c)
    (hT : aT < 2 ^ 24) (hP : aP < 2 ^ 24) :
    compensate c aT aP = claimCompensate c aT aP := by
  obtain ⟨e1, b1⟩ := dT_src_eq hc hT
  obtain ⟨e2, b2a, b2b⟩ := TEMP_src_eq hc b1
  have e3 := secondOrder_eq b1 b2a b2b
  obtain ⟨q1, q2, q3, q4⟩ :=
    claimSecondOrder_bounds (dT_src c aT) (TEMP_src c (dT_src c aT)) b2a b2b
  obtain ⟨e4, b4⟩ := OFF_src_eq hc b1 q1 q2
  obtain ⟨e5, b5⟩ := SENS_src_eq hc b1 q3 q4
  have e6 := P_src_eq hP b5 b4
  simp only [compensate, claimCompensate]
  rw [e3, e6, e4, e5, e2, e1]

theorem adc3_lt (e : Env) (r : Nat) : adc3 e r < 2 ^ 24 := by
  unfold adc3
  apply Nat.or_lt_two_pow
  apply Nat.or_lt_two_pow
  · rw [Nat.shiftLeft_eq]
    have : e.idata r &&& 0xFF < 2 ^ 8 := Nat.lt_succ_of_le Nat.and_le_right
    omega
  · rw [Nat.shiftLeft_eq]
    have : e.idata (r + 1) &&& 0xFF < 2 ^ 8 := Nat.lt_succ_of_le Nat.and_le_right
    omega
  · have : e.idata (r + 2) &&& 0xFF < 2 ^ 8 := Nat.lt_succ_of_le Nat.and_le_right
    omega

theorem conversion_ok (e : Env) (t r cmd : Nat)
    (hg : e.garbage = ms5805_status.ok) (h : e.istatus (t + 1) = 0) :
    conversion_and_read_adc e t r cmd =
      (ms5805_status.ok, some (adc3 e r), t + 2, r + 3,
       [BusOp.cmd cmd, BusOp.cmd 0x00, BusOp.rd 3]) := by
  simp [conversion_and_read_adc, hg, h]

/-- **C1**: for every validated (16-bit) coefficient table and non-zero
24-bit raw ADC pair, `read_temperature_and_pressure` computes the claimed
compensation pipeline in exact signed integer arithmetic with arithmetic
right shifts and returns `(TEMP - T2) / 100` and `P / 100` (the raw
values are the big-endian 24-bit combinations read by the two
conversions, which are below `2 ^ 24` by construction and assumed
non-zero; the indeterminate `status` local of `conversion_and_read_adc`
is assumed benign, i.e. `ok`). -/
theorem c1_compensation_formulas (e : Env) (s : DState) (t r : Nat)
    (hcr : s.coeff_read = true) (hwf : promWF s.eeprom_coeff)
    (hg : e.garbage = ms5805_status.ok)
    (h1 : e.istatus (t + 1) = 0) (h2 : e.istatus (t + 3) = 0)
    (hT0 : adc3 e r ≠ 0) (hP0 : adc3 e (r + 3) ≠ 0) :
    (read_temperature_and_pressure e s t r).1 = ms5805_status.ok ∧
    (read_temperature_and_pressure e s t r).2.1 =
      some (claimCompensate s.eeprom_coeff (adc3 e r) (adc3 e (r + 3))) := by
  have hc1 := conversion_ok e t r ((s.osr * 2 &&& 0xFF) ||| 0x50) hg h1
  have hc2 := conversion_ok e (t + 2) (r + 3) ((s.osr * 2 &&& 0xFF) ||| 0x40) hg
    (by rw [show t + 2 + 1 = t + 3 by omega]; exact h2)
  simp only [read_temperature_and_pressure, hcr, Bool.true_eq_false, if_false, ite_false]
  rw [hc1, hc2]
  simp only [ne_eq, not_true_eq_false, if_false, Option.getD_some, hT0, hP0, or_self,
    ite_false, not_false_eq_true, ite_true]
  refine ⟨trivial, ?_⟩
  rw [compensate_eq hwf (adc3_lt e r) (adc3_lt e (r + 3))]

/-- Closed instance of `c1_compensation_formulas`. -/
theorem c1_compensation_formulas_witness :
    (read_temperature_and_pressure ⟨fun _ => 0, fun _ => 1, ms5805_status.ok⟩
        ⟨true, ⟨1, 2, 3, 4, 5, 6, 7, 8⟩, 0⟩ 0 0).1 = ms5805_status.ok ∧
    (read_temperature_and_pressure ⟨fun _ => 0, fun _ => 1, ms5805_status.ok⟩
        ⟨true, ⟨1, 2, 3, 4, 5, 6, 7, 8⟩, 0⟩ 0 0).2.1 =
      some (claimCompensate ⟨1, 2, 3, 4, 5, 6, 7, 8⟩
        (adc3 ⟨fun _ => 0, fun _ => 1, ms5805_status.ok⟩ 0)
        (adc3 ⟨fun _ => 0, fun _ => 1, ms5805_status.ok⟩ 3)) :=
  c1_compensation_formulas ⟨fun _ => 0, fun _ => 1, ms5805_status.ok⟩
    ⟨true, ⟨1, 2, 3, 4, 5, 6, 7, 8⟩, 0⟩ 0 0 rfl (by decide) rfl rfl rfl
    (by decide) (by decide)

/-- **C2**: the second-order correction of
`read_temperature_and_pressure` branches on strict `TEMP < 2000` and
strict `TEMP < -1500`, with the formulas the claim states; in
particular `TEMP = 2000` takes the else branch and `TEMP = -1500` takes
the else branch of the nested check (no `17`/`9` penalty terms). -/
theorem c2_second_order_branches (dT TEMP : Int) (hdT : |dT| ≤ 2 ^ 24)
    (hlo : -129072 ≤ TEMP) (hhi : TEMP ≤ 133072) :
    (TEMP < 2000 → secondOrder dT TEMP =
      (sar (3 * (dT * dT)) 33,
       Int.tdiv (61 * ((TEMP - 2000) * (TEMP - 2000))) 16 +
         (if TEMP < -1500 then 17 * ((TEMP + 1500) * (TEMP + 1500)) else 0),
       Int.tdiv (29 * ((TEMP - 2000) * (TEMP - 2000))) 16 +
         (if TEMP < -1500 then 9 * ((TEMP + 1500) * (TEMP + 1500)) else 0))) ∧
    (2000 ≤ TEMP → secondOrder dT TEMP = (sar (5 * (dT * dT)) 38, 0, 0)) ∧
    (TEMP = 2000 → secondOrder dT TEMP = (sar (5 * (dT * dT)) 38, 0, 0)) ∧
    (TEMP = -1500 → secondOrder dT TEMP =
      (sar (3 * (dT * dT)) 33,
       Int.tdiv (61 * ((TEMP - 2000) * (TEMP - 2000))) 16,
       Int.tdiv (29 * ((TEMP - 2000) * (TEMP - 2000))) 16)) := by
  have he := secondOrder_eq hdT hlo hhi
  refine ⟨?_, ?_, ?_, ?_⟩
  · intro h
    rw [he]
    unfold claimSecondOrder
    rw [if_pos h]
  · intro h
    rw [he]
    unfold claimSecondOrder
    rw [if_neg (by omega)]
  · intro h
    rw [he]
    unfold claimSecondOrder
    rw [if_neg (by omega)]
  · intro h
    rw [he]
    unfold claimSecondOrder
    rw [if_pos (by omega), if_neg (by omega), if_neg (by omega), add_zero, add_zero]

/-- Closed instance of `c2_second_order_branches` at the boundary
`TEMP = 2000`. -/
theorem c2_second_order_branches_witness :
    secondOrder 4096 2000 = (sar (5 * ((4096 : Int) * 4096)) 38, 0, 0) :=
  (c2_second_order_branches 4096 2000 (by decide) (by decide) (by decide)).2.2.1 rfl

set_option maxRecDepth 100000 in
/-- **C3** (counterexample): on the table with word 0 = `0x100` and all
other words zero and the 4-bit expected value 14, `crc_check` answers
`true` but the reference definition worded by the claim (bytes XOR-ed
into the **high** byte of the remainder at even byte indices) answers
`false`, so `crc_check` does not equal that reference. -/
theorem c3_crc_reference_counterexample :
    (crc_check ⟨0x100, 0, 0, 0, 0, 0, 0, 0⟩ 14).1 = true ∧
    crcClaimCheck ⟨0x100, 0, 0, 0, 0, 0, 0, 0⟩ 14 = false := by
  constructor <;> decide

/-- **C3** (amended): `crc_check` equals the reference definition with
every byte XOR-ed into the **low** byte of the remainder (the byte being
the word's high byte at even byte indices and its low byte at odd
ones); everything else of the claim — word 0 masked to its low 12 bits,
word 7 zeroed, the 16 bytes processed most-significant-byte-first, the
eight shift-and-conditionally-XOR-`0x3000` steps, and the final
comparison of the remainder shifted right by 12 against the expected
4-bit CRC — is as claimed. -/
theorem c3_crc_reference_amended (p : Prom) (crc : Nat) :
    (crc_check p crc).1 = crcClaimFixedCheck p crc := rfl

set_option maxRecDepth 100000 in
/-- **C9** (counterexample): `crc_check` does *not* restore slot 7: on a
table whose slot 7 holds 9, the table after the call differs from the
input (slot 7 has been zeroed permanently). -/
theorem c9_crc_table_restore_counterexample :
    (crc_check ⟨1, 2, 3, 4, 5, 6, 7, 9⟩ 0).2 ≠ ⟨1, 2, 3, 4, 5, 6, 7, 9⟩ := by
  decide

/-- **C9** (amended): after `crc_check` returns, the CRC word at index 0
is identical to its value before the call (the masking of slot 0 is only
temporary), but the zeroing of slot 7 persists: the final table is
exactly the input table with slot 7 set to 0. -/
theorem c9_crc_table_restore_amended (p : Prom) (crc : Nat) :
    ((crc_check p crc).2).get 0 = p.get 0 ∧ (crc_check p crc).2 = p.set 7 0 := by
  cases p
  exact ⟨rfl, rfl⟩


theorem coeff_ok (e : Env) (t r a : Nat) (h : e.istatus t ≠ 1) :
    read_eeprom_coeff e t r a =
      (ms5805_status.ok, some (((e.idata r &&& 0xFF) <<< 8) ||| (e.idata (r + 1) &&& 0xFF)),
       t + 1, r + 2, [BusOp.cmd a, BusOp.rd 2]) := by
  simp [read_eeprom_coeff, h]

/-- **C4** (amended): on a cache miss with an acknowledging bus, the
coefficient load reads 7 sixteen-bit words from the 7 fixed addresses
`0xA0, 0xA2, …, 0xAC` (a contiguous block spaced by 2), each word
obtained by one address-select command followed by a read of exactly 2
bytes combined big-endian, and only then runs CRC validation on the
words just stored (returning `ok` or `crc_error` accordingly). -/
theorem c4_seven_word_read_amended (e : Env) (s : DState) (t r : Nat)
    (h : ∀ k, k < 7 → e.istatus (t + k) ≠ 1) :
    (read_eeprom e s t r).2.2.2.2 =
      [BusOp.cmd 0xA0, BusOp.rd 2, BusOp.cmd 0xA2, BusOp.rd 2,
       BusOp.cmd 0xA4, BusOp.rd 2, BusOp.cmd 0xA6, BusOp.rd 2,
       BusOp.cmd 0xA8, BusOp.rd 2, BusOp.cmd 0xAA, BusOp.rd 2,
       BusOp.cmd 0xAC, BusOp.rd 2] ∧
    (read_eeprom e s t r).2.1.eeprom_coeff =
      ⟨(e.idata r &&& 0xFF) <<< 8 ||| (e.idata (r + 1) &&& 0xFF),
       (e.idata (r + 2) &&& 0xFF) <<< 8 ||| (e.idata (r + 3) &&& 0xFF),
       (e.idata (r + 4) &&& 0xFF) <<< 8 ||| (e.idata (r + 5) &&& 0xFF),
       (e.idata (r + 6) &&& 0xFF) <<< 8 ||| (e.idata (r + 7) &&& 0xFF),
       (e.idata (r + 8) &&& 0xFF) <<< 8 ||| (e.idata (r + 9) &&& 0xFF),
       (e.idata (r + 10) &&& 0xFF) <<< 8 ||| (e.idata (r + 11) &&& 0xFF),
       (e.idata (r + 12) &&& 0xFF) <<< 8 ||| (e.idata (r + 13) &&& 0xFF),
       0⟩ ∧
    (read_eeprom e s t r).1 =
      (if (crc_check
            ⟨(e.idata r &&& 0xFF) <<< 8 ||| (e.idata (r + 1) &&& 0xFF),
             (e.idata (r + 2) &&& 0xFF) <<< 8 ||| (e.idata (r + 3) &&& 0xFF),
             (e.idata (r + 4) &&& 0xFF) <<< 8 ||| (e.idata (r + 5) &&& 0xFF),
             (e.idata (r + 6) &&& 0xFF) <<< 8 ||| (e.idata (r + 7) &&& 0xFF),
             (e.idata (r + 8) &&& 0xFF) <<< 8 ||| (e.idata (r + 9) &&& 0xFF),
             (e.idata (r + 10) &&& 0xFF) <<< 8 ||| (e.idata (r + 11) &&& 0xFF),
             (e.idata (r + 12) &&& 0xFF) <<< 8 ||| (e.idata (r + 13) &&& 0xFF),
             s.eeprom_coeff.c7⟩
            ((((e.idata r &&& 0xFF) <<< 8 ||| (e.idata (r + 1) &&& 0xFF)) &&& 0xF000) >>> 12)).1
       then ms5805_status.ok else ms5805_status.crc_error) := by
  obtain ⟨cr, ⟨a0, a1, a2, a3, a4, a5, a6, a7⟩, osr⟩ := s
  have h0 : e.istatus t ≠ 1 := by have := h 0 (by omega); simpa using this
  have h1 : e.istatus (t + 1) ≠ 1 := h 1 (by omega)
  have h2 : e.istatus (t + 1 + 1) ≠ 1 := by
    rw [show t + 1 + 1 = t + 2 by omega]; exact h 2 (by omega)
  have h3 : e.istatus (t + 1 + 1 + 1) ≠ 1 := by
    rw [show t + 1 + 1 + 1 = t + 3 by omega]; exact h 3 (by omega)
  have h4 : e.istatus (t + 1 + 1 + 1 + 1) ≠ 1 := by
    rw [show t + 1 + 1 + 1 + 1 = t + 4 by omega]; exact h 4 (by omega)
  have h5 : e.istatus (t + 1 + 1 + 1 + 1 + 1) ≠ 1 := by
    rw [show t + 1 + 1 + 1 + 1 + 1 = t + 5 by omega]; exact h 5 (by omega)
  have h6 : e.istatus (t + 1 + 1 + 1 + 1 + 1 + 1) ≠ 1 := by
    rw [show t + 1 + 1 + 1 + 1 + 1 + 1 = t + 6 by omega]; exact h 6 (by omega)
  simp only [read_eeprom, read_eeprom_loop, coeff_ok e t r _ h0,
    coeff_ok e (t + 1) (r + 2) _ h1, coeff_ok e (t + 1 + 1) (r + 2 + 2) _ h2,
    coeff_ok e (t + 1 + 1 + 1) (r + 2 + 2 + 2) _ h3,
    coeff_ok e (t + 1 + 1 + 1 + 1) (r + 2 + 2 + 2 + 2) _ h4,
    coeff_ok e (t + 1 + 1 + 1 + 1 + 1) (r + 2 + 2 + 2 + 2 + 2) _ h5,
    coeff_ok e (t + 1 + 1 + 1 + 1 + 1 + 1) (r + 2 + 2 + 2 + 2 + 2 + 2) _ h6]
  simp only [show r + 2 + 1 = r + 3 from by omega, show r + 2 + 2 = r + 4 from by omega,
    show r + 4 + 1 = r + 5 from by omega, show r + 4 + 2 = r + 6 from by omega,
    show r + 6 + 1 = r + 7 from by omega, show r + 6 + 2 = r + 8 from by omega,
    show r + 8 + 1 = r + 9 from by omega, show r + 8 + 2 = r + 10 from by omega,
    show r + 10 + 1 = r + 11 from by omega, show r + 10 + 2 = r + 12 from by omega,
    show r + 12 + 1 = r + 13 from by omega]
  simp [Prom.set, Prom.get, crc_check]
  split <;> simp_all

/-- Closed instance of `c4_seven_word_read_amended`. -/
theorem c4_seven_word_read_amended_witness :
    (read_eeprom ⟨fun _ => 0, fun k => k, ms5805_status.ok⟩
        ⟨false, ⟨9, 9, 9, 9, 9, 9, 9, 9⟩, 0⟩ 0 0).2.2.2.2 =
      [BusOp.cmd 0xA0, BusOp.rd 2, BusOp.cmd 0xA2, BusOp.rd 2,
       BusOp.cmd 0xA4, BusOp.rd 2, BusOp.cmd 0xA6, BusOp.rd 2,
       BusOp.cmd 0xA8, BusOp.rd 2, BusOp.cmd 0xAA, BusOp.rd 2,
       BusOp.cmd 0xAC, BusOp.rd 2] :=
  (c4_seven_word_read_amended ⟨fun _ => 0, fun k => k, ms5805_status.ok⟩
    ⟨false, ⟨9, 9, 9, 9, 9, 9, 9, 9⟩, 0⟩ 0 0 (fun _ _ => Nat.zero_ne_one)).1

set_option maxRecDepth 100000 in
/-- **C4** (counterexample): with an all-acknowledging bus, a cache-miss
coefficient load performs exactly 7 address-select/2-byte-read pairs
(addresses `0xA0`–`0xAC`), not 8: address `0xAE` is never selected. -/
theorem c4_eight_word_counterexample :
    (read_eeprom ⟨fun _ => 0, fun _ => 0, ms5805_status.ok⟩
        ⟨false, ⟨0, 0, 0, 0, 0, 0, 0, 0⟩, 0⟩ 0 0).2.2.2.2 =
      [BusOp.cmd 0xA0, BusOp.rd 2, BusOp.cmd 0xA2, BusOp.rd 2,
       BusOp.cmd 0xA4, BusOp.rd 2, BusOp.cmd 0xA6, BusOp.rd 2,
       BusOp.cmd 0xA8, BusOp.rd 2, BusOp.cmd 0xAA, BusOp.rd 2,
       BusOp.cmd 0xAC, BusOp.rd 2] ∧
    BusOp.cmd 0xAE ∉ (read_eeprom ⟨fun _ => 0, fun _ => 0, ms5805_status.ok⟩
        ⟨false, ⟨0, 0, 0, 0, 0, 0, 0, 0⟩, 0⟩ 0 0).2.2.2.2 := by
  constructor <;> decide

/-- **C5**: `read_eeprom_coeff` in the source never maps a non-overflow
bus failure to `TransferError`: when the address-select exchange reports
`ms5805_STATUS_ERR_TIMEOUT` (code 4), the call returns
`ms5805_status_ok` and stores the (meaningless) big-endian word anyway,
contradicting the claimed error mapping. -/
theorem c5_timeout_returns_ok :
    (read_eeprom_coeff ⟨fun _ => 4, fun _ => 0xAB, ms5805_status.ok⟩ 0 0 0xA0).1 =
      ms5805_status.ok ∧
    (read_eeprom_coeff ⟨fun _ => 4, fun _ => 0xAB, ms5805_status.ok⟩ 0 0 0xA0).2.1 =
      some 0xABAB := by
  constructor <;> decide

theorem conv_log (e : Env) (t r cmd : Nat) :
    (conversion_and_read_adc e t r cmd).2.2.1 = t + 2 ∧
    (conversion_and_read_adc e t r cmd).2.2.2.1 = r + 3 ∧
    (conversion_and_read_adc e t r cmd).2.2.2.2 =
      [BusOp.cmd cmd, BusOp.cmd 0x00, BusOp.rd 3] := by
  simp only [conversion_and_read_adc]
  split_ifs <;> exact ⟨rfl, rfl, rfl⟩

theorem conv_cmd_lt {osr : Nat} (h : osr ≤ 5) (base : Nat)
    (hb : base = 0x50 ∨ base = 0x40) : ((osr * 2 &&& 0xFF) ||| base) < 0xA0 := by
  interval_cases osr <;> rcases hb with rfl | rfl <;> decide

theorem read_eeprom_sets_flag (e : Env) (s : DState) (t r : Nat)
    (hok : (read_eeprom e s t r).1 = ms5805_status.ok) :
    (read_eeprom e s t r).2.1.coeff_read = true := by
  rcases hl : read_eeprom_loop e 7 0 s.eeprom_coeff t r [] with ⟨st, p, t', r', log⟩
  rcases hcc : crc_check p ((p.get 0 &&& 0xF000) >>> 12) with ⟨okb, p'⟩
  simp only [read_eeprom, hl, hcc] at hok ⊢
  by_cases h1 : st = ms5805_status.ok
  · subst h1
    simp only [if_pos rfl] at hok ⊢
    by_cases h2 : okb = true
    · simp only [if_pos h2]
      rfl
    · simp only [if_neg h2] at hok
      simp at hok
  · simp only [if_neg h1] at hok
    exact absurd hok h1

theorem rtap_cached_no_prom (e : Env) (s : DState) (t r : Nat)
    (hcr : s.coeff_read = true) (hosr : s.osr ≤ 5) :
    (∀ a, BusOp.cmd a ∈ (read_temperature_and_pressure e s t r).2.2.2.2.2 → a < 0xA0) ∧
    (read_temperature_and_pressure e s t r).2.2.1.coeff_read = true := by
  have hb1 := conv_cmd_lt hosr 0x50 (Or.inl rfl)
  have hb2 := conv_cmd_lt hosr 0x40 (Or.inr rfl)
  have hl1 := conv_log e t r ((s.osr * 2 &&& 0xFF) ||| 0x50)
  rcases hc1 : conversion_and_read_adc e t r ((s.osr * 2 &&& 0xFF) ||| 0x50) with
    ⟨st1, v1, t2, r2, l1⟩
  rw [hc1] at hl1
  obtain ⟨ht2, hr2, hlog1⟩ := hl1
  subst ht2 hr2 hlog1
  have hl2 := conv_log e (t + 2) (r + 3) ((s.osr * 2 &&& 0xFF) ||| 0x40)
  rcases hc2 : conversion_and_read_adc e (t + 2) (r + 3) ((s.osr * 2 &&& 0xFF) ||| 0x40) with
    ⟨st2, v2, t3, r3, l2⟩
  rw [hc2] at hl2
  obtain ⟨ht3, hr3, hlog2⟩ := hl2
  subst ht3 hr3 hlog2
  simp only [read_temperature_and_pressure, hcr, Bool.true_eq_false, if_false, ite_false]
  rw [hc1, hc2]
  split_ifs with g0
  · exact absurd rfl g0
  all_goals refine ⟨?_, hcr⟩
  all_goals intro a ha
  all_goals simp only [List.nil_append, List.mem_append, List.mem_cons,
    List.not_mem_nil, or_false, false_or, BusOp.cmd.injEq, reduceCtorEq] at ha
  all_goals rcases ha with (rfl | rfl) | rfl | rfl <;>
    first | exact hb1 | exact hb2 | decide

/-- **C6**: coefficient loading is idempotent through the `coeff_read`
flag: a coefficient load that fetched all words and passed CRC
validation (returned `ok`) leaves `coeff_read` set, and every
`read_temperature_and_pressure` call on a state with `coeff_read = true`
performs zero coefficient-read bus operations (no command byte in the
PROM address range `0xA0`–`0xAE` is ever issued) and leaves the flag
set, so all subsequent calls short-circuit the same way. -/
theorem c6_coeff_cache_idempotent :
    (∀ (e : Env) (s : DState) (t r : Nat),
      (read_eeprom e s t r).1 = ms5805_status.ok →
      (read_eeprom e s t r).2.1.coeff_read = true) ∧
    (∀ (e : Env) (s : DState) (t r : Nat),
      s.coeff_read = true → s.osr ≤ 5 →
      (∀ a, BusOp.cmd a ∈ (read_temperature_and_pressure e s t r).2.2.2.2.2 →
        a < 0xA0) ∧
      (read_temperature_and_pressure e s t r).2.2.1.coeff_read = true) :=
  ⟨read_eeprom_sets_flag, rtap_cached_no_prom⟩

set_option maxRecDepth 100000 in
/-- Closed instance of `c6_coeff_cache_idempotent`. -/
theorem c6_coeff_cache_idempotent_witness :
    (read_eeprom ⟨fun _ => 0, fun _ => 0, ms5805_status.ok⟩
        ⟨false, ⟨0, 0, 0, 0, 0, 0, 0, 0⟩, 0⟩ 0 0).2.1.coeff_read = true ∧
    (read_temperature_and_pressure ⟨fun _ => 0, fun _ => 0, ms5805_status.ok⟩
        ⟨true, ⟨0, 0, 0, 0, 0, 0, 0, 0⟩, 0⟩ 0 0).2.2.1.coeff_read = true ∧
    (∀ a, BusOp.cmd a ∈ (read_temperature_and_pressure
        ⟨fun _ => 0, fun _ => 0, ms5805_status.ok⟩
        ⟨true, ⟨0, 0, 0, 0, 0, 0, 0, 0⟩, 0⟩ 0 0).2.2.2.2.2 → a < 0xA0) :=
  ⟨c6_coeff_cache_idempotent.1 ⟨fun _ => 0, fun _ => 0, ms5805_status.ok⟩
      ⟨false, ⟨0, 0, 0, 0, 0, 0, 0, 0⟩, 0⟩ 0 0 (by decide),
   (c6_coeff_cache_idempotent.2 ⟨fun _ => 0, fun _ => 0, ms5805_status.ok⟩
      ⟨true, ⟨0, 0, 0, 0, 0, 0, 0, 0⟩, 0⟩ 0 0 rfl (by decide)).2,
   (c6_coeff_cache_idempotent.2 ⟨fun _ => 0, fun _ => 0, ms5805_status.ok⟩
      ⟨true, ⟨0, 0, 0, 0, 0, 0, 0, 0⟩, 0⟩ 0 0 rfl (by decide)).1⟩

theorem coeff_log (e : Env) (t r a : Nat) :
    (read_eeprom_coeff e t r a).2.2.2.2 = [BusOp.cmd a, BusOp.rd 2] := by
  simp only [read_eeprom_coeff]
  split_ifs <;> rfl

theorem read_eeprom_loop_log_prefix (e : Env) :
    ∀ (n i : Nat) (p : Prom) (t r : Nat) (log : List BusOp),
      ∃ rest, (read_eeprom_loop e n i p t r log).2.2.2.2 = log ++ rest := by
  intro n
  induction n with
  | zero =>
    intro i p t r log
    exact ⟨[], (List.append_nil log).symm⟩
  | succ n ih =>
    intro i p t r log
    rcases hc : read_eeprom_coeff e t r (0xA0 + i * 2) with ⟨st, v, t', r', l⟩
    simp only [read_eeprom_loop, hc]
    by_cases hst : st = ms5805_status.ok
    · simp only [if_pos hst]
      obtain ⟨rest, hr⟩ := ih (i + 1) (p.set i (v.getD 0)) t' r' (log ++ l)
      exact ⟨l ++ rest, by rw [hr, List.append_assoc]⟩
    · simp only [if_neg hst]
      exact ⟨l, rfl⟩

theorem read_eeprom_log_eq_loop (e : Env) (s : DState) (t r : Nat) :
    (read_eeprom e s t r).2.2.2.2 =
      (read_eeprom_loop e 7 0 s.eeprom_coeff t r []).2.2.2.2 := by
  rcases hl : read_eeprom_loop e 7 0 s.eeprom_coeff t r [] with ⟨st, p, t', r', log⟩
  rcases hcc : crc_check p ((p.get 0 &&& 0xF000) >>> 12) with ⟨okb, p'⟩
  simp only [read_eeprom, hl, hcc]
  split_ifs <;> rfl

theorem read_eeprom_log_head (e : Env) (s : DState) (t r : Nat) :
    BusOp.cmd 0xA0 ∈ (read_eeprom e s t r).2.2.2.2 := by
  rw [read_eeprom_log_eq_loop]
  rw [show (7 : Nat) = 6 + 1 from rfl]
  rw [read_eeprom_loop]
  rcases hc : read_eeprom_coeff e t r (0xA0 + 0 * 2) with ⟨st, v, t', r', l⟩
  have hl : l = [BusOp.cmd (0xA0 + 0 * 2), BusOp.rd 2] := by
    have := coeff_log e t r (0xA0 + 0 * 2)
    rw [hc] at this
    exact this
  dsimp only []
  by_cases hst : st = ms5805_status.ok
  · simp only [if_pos hst]
    obtain ⟨rest, hr⟩ :=
      read_eeprom_loop_log_prefix e 6 (0 + 1) (s.eeprom_coeff.set 0 (v.getD 0)) t' r' ([] ++ l)
    rw [hr, hl]
    simp
  · simp only [if_neg hst]
    rw [hl]
    simp

/-- **C7**: when the word fetch completes but the computed CRC does not
match the stored nibble, `read_eeprom` returns `CrcError` and leaves
`coeff_read` unchanged (in particular still `false`), so the next
`read_temperature_and_pressure` on the unvalidated state propagates
`CrcError`, produces no outputs, still has `coeff_read = false`, and has
re-attempted the coefficient fetch on the bus (the PROM address-select
command `0xA0` is issued again). -/
theorem c7_crc_error_leaves_cache_unvalidated (e : Env) (s : DState) (t r : Nat)
    (hloop : (read_eeprom_loop e 7 0 s.eeprom_coeff t r []).1 = ms5805_status.ok)
    (hcrc : (crc_check (read_eeprom_loop e 7 0 s.eeprom_coeff t r []).2.1
      (((read_eeprom_loop e 7 0 s.eeprom_coeff t r []).2.1.get 0 &&& 0xF000) >>> 12)).1 =
      false) :
    (read_eeprom e s t r).1 = ms5805_status.crc_error ∧
    (read_eeprom e s t r).2.1.coeff_read = s.coeff_read ∧
    (s.coeff_read = false →
      (read_temperature_and_pressure e s t r).1 = ms5805_status.crc_error ∧
      (read_temperature_and_pressure e s t r).2.1 = none ∧
      (read_temperature_and_pressure e s t r).2.2.1.coeff_read = false ∧
      BusOp.cmd 0xA0 ∈ (read_temperature_and_pressure e s t r).2.2.2.2.2) := by
  have hhead := read_eeprom_log_head e s t r
  rcases hl : read_eeprom_loop e 7 0 s.eeprom_coeff t r [] with ⟨st, p, t', r', log⟩
  rw [hl] at hloop hcrc
  replace hloop : st = ms5805_status.ok := hloop
  subst hloop
  rcases hcc : crc_check p ((p.get 0 &&& 0xF000) >>> 12) with ⟨okb, p'⟩
  rw [hcc] at hcrc
  replace hcrc : okb = false := hcrc
  subst hcrc
  have hre : read_eeprom e s t r =
      (ms5805_status.crc_error, { s with eeprom_coeff := p' }, t', r', log) := by
    simp only [read_eeprom, hl, hcc]
    rfl
  rw [hre] at hhead ⊢
  refine ⟨rfl, rfl, ?_⟩
  intro hcf
  simp only [read_temperature_and_pressure, hcf, hre, eq_self_iff_true, ite_true]
  simp at hhead ⊢
  exact hhead

/-- **C8**: even when every bus exchange reports success (all
`endTransmission` statuses are 0) and the cached coefficients are valid,
`read_temperature_and_pressure` returns `TransferError` whenever either
24-bit raw ADC value is exactly zero, and produces no outputs. -/
theorem c8_zero_adc_transfer_error (e : Env) (s : DState) (t r : Nat)
    (hcr : s.coeff_read = true) (hg : e.garbage = ms5805_status.ok)
    (hst : ∀ k, e.istatus k = 0)
    (hz : adc3 e r = 0 ∨ adc3 e (r + 3) = 0) :
    (read_temperature_and_pressure e s t r).1 = ms5805_status.i2c_transfer_error ∧
    (read_temperature_and_pressure e s t r).2.1 = none := by
  have hc1 := conversion_ok e t r ((s.osr * 2 &&& 0xFF) ||| 0x50) hg (hst (t + 1))
  have hc2 := conversion_ok e (t + 2) (r + 3) ((s.osr * 2 &&& 0xFF) ||| 0x40) hg
    (hst (t + 2 + 1))
  simp only [read_temperature_and_pressure, hcr, Bool.true_eq_false, if_false, ite_false]
  rw [hc1, hc2]
  simp only [ne_eq, not_true_eq_false, if_false, Option.getD_some, ite_false,
    not_false_eq_true, ite_true]
  rw [if_pos hz]
  exact ⟨rfl, rfl⟩

/-- Closed instance of `c8_zero_adc_transfer_error`. -/
theorem c8_zero_adc_transfer_error_witness :
    (read_temperature_and_pressure ⟨fun _ => 0, fun _ => 0, ms5805_status.ok⟩
        ⟨true, ⟨0, 0, 0, 0, 0, 0, 0, 0⟩, 0⟩ 0 0).1 = ms5805_status.i2c_transfer_error ∧
    (read_temperature_and_pressure ⟨fun _ => 0, fun _ => 0, ms5805_status.ok⟩
        ⟨true, ⟨0, 0, 0, 0, 0, 0, 0, 0⟩, 0⟩ 0 0).2.1 = none :=
  c8_zero_adc_transfer_error ⟨fun _ => 0, fun _ => 0, ms5805_status.ok⟩
    ⟨true, ⟨0, 0, 0, 0, 0, 0, 0, 0⟩, 0⟩ 0 0 rfl rfl (fun _ => rfl) (Or.inl (by decide))

/-- **C10**: the status of the conversion-start write is indeed never
examined, but the value `conversion_and_read_adc` returns is the one
found in its never-initialised local `status`: with every bus exchange
reporting success (all statuses 0) and an indeterminate value of
`CrcError`, the function returns `CrcError` and stores no ADC value —
the returned status does not depend only on the second exchange. -/
theorem c10_uninitialized_status_returned :
    (conversion_and_read_adc ⟨fun _ => 0, fun _ => 0x12, ms5805_status.crc_error⟩
      0 0 0x50).1 = ms5805_status.crc_error ∧
    (conversion_and_read_adc ⟨fun _ => 0, fun _ => 0x12, ms5805_status.crc_error⟩
      0 0 0x50).2.1 = none := by
  constructor <;> decide

set_option maxRecDepth 100000 in
/-- Closed instance of `c7_crc_error_leaves_cache_unvalidated` (all data
bytes 1, so every stored word is `0x0101`, whose table CRC is 3 while
the stored nibble is 0). -/
theorem c7_crc_error_witness :
    (read_eeprom ⟨fun _ => 0, fun _ => 1, ms5805_status.ok⟩
        ⟨false, ⟨0, 0, 0, 0, 0, 0, 0, 0⟩, 0⟩ 0 0).1 = ms5805_status.crc_error ∧
    (read_eeprom ⟨fun _ => 0, fun _ => 1, ms5805_status.ok⟩
        ⟨false, ⟨0, 0, 0, 0, 0, 0, 0, 0⟩, 0⟩ 0 0).2.1.coeff_read = false ∧
    (read_temperature_and_pressure ⟨fun _ => 0, fun _ => 1, ms5805_status.ok⟩
        ⟨false, ⟨0, 0, 0, 0, 0, 0, 0, 0⟩, 0⟩ 0 0).1 = ms5805_status.crc_error ∧
    (read_temperature_and_pressure ⟨fun _ => 0, fun _ => 1, ms5805_status.ok⟩
        ⟨false, ⟨0, 0, 0, 0, 0, 0, 0, 0⟩, 0⟩ 0 0).2.1 = none ∧
    (read_temperature_and_pressure ⟨fun _ => 0, fun _ => 1, ms5805_status.ok⟩
        ⟨false, ⟨0, 0, 0, 0, 0, 0, 0, 0⟩, 0⟩ 0 0).2.2.1.coeff_read = false ∧
    BusOp.cmd 0xA0 ∈ (read_temperature_and_pressure ⟨fun _ => 0, fun _ => 1, ms5805_status.ok⟩
        ⟨false, ⟨0, 0, 0, 0, 0, 0, 0, 0⟩, 0⟩ 0 0).2.2.2.2.2 := by
  have h := c7_crc_error_leaves_cache_unvalidated ⟨fun _ => 0, fun _ => 1, ms5805_status.ok⟩
    ⟨false, ⟨0, 0, 0, 0, 0, 0, 0, 0⟩, 0⟩ 0 0 (by decide) (by decide)
  obtain ⟨h1, h2, h3⟩ := h
  obtain ⟨h4, h5, h6, h7⟩ := h3 rfl
  exact ⟨h1, h2, h4, h5, h6, h7⟩

end MS5805
